import Mathlib

/-!
Shallow embedding of the task-execution engine of the `ideaforge` CLI:
* `runReviewLoop` embeds `ReviewLoopOrchestrator.runReviewLoop` (agents/reviewer module),
* `topologicalSort` / `executeTasks` embed `TaskExecutionOrchestrator` (src/agents/worker.ts),
* `runCmd` embeds the execution/review/pairing flow of `src/commands/run.ts`.

External capabilities (the LLM worker and reviewer agents) are modelled as oracle
functions supplied as parameters; everything the engine itself computes is embedded
as executable Lean functions.
-/

namespace Ideaforge

/-- Worker result status (`WorkerResultSchema.status` in src/agents/worker.ts). -/
inductive WStatus where
  | completed
  | failed
  | needs_review
deriving DecidableEq, Repr

/-- Review result status (`ReviewResultSchema.status` in the reviewer module). -/
inductive RStatus where
  | approved
  | needs_changes
  | rejected
deriving DecidableEq, Repr

/-- A task of the compiled spec (`TaskSchema` in src/schemas/spec.ts).  Only the fields
the execution engine reads are embedded.  The schema names the dependency field
`dependsOn`; worker.ts reads it as `task.dependencies` (lines 243 and 435) — the
embedding uses the single field `dependencies` for that list. -/
structure Task where
  id : String
  title : String
  dependencies : List String
  acceptanceCriteria : List String
deriving DecidableEq, Repr

/-- Worker execution result (`WorkerResult` in src/agents/worker.ts), with the
fields the engine inspects (`taskId`, `status`) plus the summary payload. -/
structure WorkerResult where
  taskId : String
  status : WStatus
  summary : String
deriving DecidableEq, Repr

/-- One review issue (`ReviewResultSchema.feedback.issues` entries). -/
structure Issue where
  type : String
  category : String
  description : String
deriving DecidableEq, Repr

/-- Review verdict (`ReviewResult` in the reviewer module): status, score and the
issues of `feedback.issues`. -/
structure ReviewResult where
  taskId : String
  status : RStatus
  score : Nat
  issues : List Issue
  summary : String
deriving DecidableEq, Repr

/-- The record returned by `ReviewLoopOrchestrator.runReviewLoop`:
`{ finalReview, iterations, approved }`.  `finalReview` is
`iterations[iterations.length - 1]`, which is `undefined` (here `none`) when the
loop body never ran. -/
structure ReviewLoopOutcome where
  finalReview : Option ReviewResult
  iterations : List ReviewResult
  approved : Bool
deriving DecidableEq, Repr

/-- Accumulator of the review loop: the `iterations` array, the `approved` flag,
and (instrumentation) the list of worker results passed to each
`reviewerAgent.reviewTask` call, in call order. -/
structure LoopAcc where
  iterations : List ReviewResult
  approved : Bool
  calls : List WorkerResult
deriving DecidableEq, Repr

/-- The `for (let i = 0; i < maxIterations; i++)` loop of `runReviewLoop`.
`reviewer i current` models the external `reviewerAgent.reviewTask(currentResult, …)`
call at iteration `i` (an oracle: the agent may answer differently per call).
`current` is the `currentResult` variable; the source never reassigns it (the
regeneration step is a `TODO`), so it is threaded unchanged.  Each loop body
appends the verdict to `iterations`, then breaks on `approved` (setting the flag)
or `rejected`, and otherwise continues. -/
def reviewLoopGo (reviewer : Nat → WorkerResult → ReviewResult)
    (current : WorkerResult) :
    Nat → Nat → List ReviewResult → List WorkerResult → LoopAcc
  | _, 0, acc, cs => ⟨acc, false, cs⟩
  | i, fuel + 1, acc, cs =>
    let review := reviewer i current
    if review.status = RStatus.approved then
      ⟨acc ++ [review], true, cs ++ [current]⟩
    else if review.status = RStatus.rejected then
      ⟨acc ++ [review], false, cs ++ [current]⟩
    else
      reviewLoopGo reviewer current (i + 1) fuel (acc ++ [review]) (cs ++ [current])

/-- `ReviewLoopOrchestrator.runReviewLoop`: runs up to `maxIterations` review
iterations on `workerResult` and returns `{ finalReview, iterations, approved }`. -/
def runReviewLoop (maxIterations : Nat)
    (reviewer : Nat → WorkerResult → ReviewResult)
    (workerResult : WorkerResult) : ReviewLoopOutcome :=
  let acc := reviewLoopGo reviewer workerResult 0 maxIterations [] []
  ⟨acc.iterations.getLast?, acc.iterations, acc.approved⟩

/-- The sequence of worker results handed to the review capability by
`runReviewLoop`, one entry per `reviewTask` call, in call order. -/
def reviewInputs (maxIterations : Nat)
    (reviewer : Nat → WorkerResult → ReviewResult)
    (workerResult : WorkerResult) : List WorkerResult :=
  (reviewLoopGo reviewer workerResult 0 maxIterations [] []).calls

/-- Errors escaping `TaskExecutionOrchestrator.topologicalSort`.  The source
throws `Error("Circular dependency detected involving task " + taskId)` — a
message naming exactly one task id, modelled as `cycle taskId`.  `fuel` is an
artifact of the embedding's recursion guard and is never produced when the
guard is large enough (the guard chosen below always is for the inputs used
in this development, as the proofs demonstrate by evaluation). -/
inductive TopoErr where
  | cycle (taskId : String)
  | fuel
deriving DecidableEq, Repr

/-- The task ids named by a topological-sort error: the thrown message mentions
the single id at which the DFS re-entered the `visiting` set. -/
def listedMembers : TopoErr → List String
  | TopoErr.cycle taskId => [taskId]
  | TopoErr.fuel => []

/-- The mutable state of `topologicalSort`: the `visited` set, the `visiting`
set and the `result` array (sets embedded as lists, membership-faithful since
each id is inserted at most once). -/
structure TopoState where
  visited : List String
  visiting : List String
  result : List Task
deriving DecidableEq, Repr

/-- `taskMap.get(id)` for `taskMap = new Map(tasks.map(t => [t.id, t]))`: a JS
`Map` built from an entry list keeps the last entry per key. -/
def taskMapGet (tasks : List Task) (id : String) : Option Task :=
  (tasks.filter (fun t => t.id == id)).getLast?

/-- The recursive `visit` of `topologicalSort`, over an explicit worklist of
task ids.  For the head id: re-entering `visiting` throws the circular-dependency
error; an already `visited` id is skipped; an id absent from the task map is
skipped (`return; // Skip missing dependencies`); otherwise the id is pushed on
`visiting`, its `task.dependencies` are visited first, then the id moves to
`visited` and the task is pushed on `result`.  The remaining worklist is
processed in the resulting state.  `fuel` decreases on every recursive call so
the function is structurally recursive; a sufficiently large guard (see
`topoFuel`) never runs out. -/
def visitList (tasks : List Task) :
    Nat → List String → TopoState → Except TopoErr TopoState
  | 0, _, _ => Except.error TopoErr.fuel
  | _ + 1, [], st => Except.ok st
  | fuel + 1, taskId :: rest, st =>
    let step : Except TopoErr TopoState :=
      if taskId ∈ st.visiting then
        Except.error (TopoErr.cycle taskId)
      else if taskId ∈ st.visited then
        Except.ok st
      else
        match taskMapGet tasks taskId with
        | none => Except.ok st
        | some task =>
          match visitList tasks fuel task.dependencies
              { st with visiting := st.visiting ++ [taskId] } with
          | Except.error e => Except.error e
          | Except.ok st2 =>
            Except.ok { visited := st2.visited ++ [taskId],
                        visiting := st2.visiting.erase taskId,
                        result := st2.result ++ [task] }
    match step with
    | Except.error e => Except.error e
    | Except.ok st' => visitList tasks fuel rest st'

/-- Recursion guard for `visitList`: strictly larger than the number of nested
calls any DFS over `tasks` can make (each level consumes one worklist element
or descends into one dependency list, and every id enters `visited` at most
once). -/
def topoFuel (tasks : List Task) : Nat :=
  (tasks.length + (tasks.map (fun t => t.dependencies.length)).sum + 1)
    * (tasks.length + 1)

/-- `TaskExecutionOrchestrator.topologicalSort(tasks)`: visits every task id in
input order and returns the `result` array, or the thrown error. -/
def topologicalSort (tasks : List Task) : Except TopoErr (List Task) :=
  match visitList tasks (topoFuel tasks) (tasks.map (fun t => t.id))
      ⟨[], [], []⟩ with
  | Except.error e => Except.error e
  | Except.ok st => Except.ok st.result

/-- The synthetic result pushed by the `catch` branch of `executeTasks` when
`workerAgent.executeTask` throws. -/
def failedWorkerResult (t : Task) (e : String) : WorkerResult :=
  ⟨t.id, WStatus.failed, "Execution failed: " ++ e⟩

/-- One loop body of `executeTasks`: run the (external) worker on the task,
catching a thrown error into the synthetic failed result. -/
def executeOne (worker : Task → Except String WorkerResult) (t : Task) :
    WorkerResult :=
  match worker t with
  | Except.ok r => r
  | Except.error e => failedWorkerResult t e

/-- `TaskExecutionOrchestrator.executeTasks`: topologically sorts the tasks
(the sort's throw escapes uncaught — no task is executed then) and runs the
worker on every sorted task in order, sequentially, collecting the results in
execution order. -/
def executeTasks (worker : Task → Except String WorkerResult)
    (tasks : List Task) : Except TopoErr (List WorkerResult) :=
  match topologicalSort tasks with
  | Except.error e => Except.error e
  | Except.ok sorted => Except.ok (sorted.map (executeOne worker))

/-- One entry of the `reviewResults` array built by `runCmd` (src/commands/run.ts):
the task (recorded by id), the worker result paired with it, and the review
result stored for it. -/
structure TaskReport where
  taskId : String
  workerResult : WorkerResult
  reviewResult : ReviewResult
deriving DecidableEq, Repr

/-- The synthetic review stored by `runCmd` for a task whose worker result has
status `failed` (review is skipped for it). -/
def failedTaskReview (taskId : String) : ReviewResult :=
  ⟨taskId, RStatus.rejected, 0,
    [⟨"critical", "functionality", "Task execution failed"⟩],
    "Task failed during execution"⟩

/-- The review phase of `runCmd` (the `for (let i = 0; i < spec.tasks.length; i++)`
loop): pairs `spec.tasks[i]` with `workerResults[i]` positionally.  A `failed`
worker result gets the synthetic rejected review without entering the review
loop; otherwise the review loop runs with `maxIterations = 3` (run.ts constructs
`new ReviewLoopOrchestrator(model, 3)`) and the loop's `finalReview` is stored.
Reading past the end of `workerResults` (or a missing `finalReview`) is a
JavaScript `undefined` dereference, caught by the surrounding `try` which exits
with code 2 — modelled as `Except.error 2`. -/
def reviewPhase (reviewer : Task → Nat → WorkerResult → ReviewResult) :
    List Task → List WorkerResult → Except Nat (List TaskReport)
  | [], _ => Except.ok []
  | _ :: _, [] => Except.error 2
  | t :: ts, w :: ws =>
    let entry : Except Nat TaskReport :=
      if w.status = WStatus.failed then
        Except.ok ⟨t.id, w, failedTaskReview t.id⟩
      else
        match (runReviewLoop 3 (reviewer t) w).finalReview with
        | some fr => Except.ok ⟨t.id, w, fr⟩
        | none => Except.error 2
    match entry with
    | Except.error c => Except.error c
    | Except.ok r =>
      match reviewPhase reviewer ts ws with
      | Except.error c => Except.error c
      | Except.ok rs => Except.ok (r :: rs)

/-- Outcome of the `run` command: the dry-run early return, the `catch` branch
(`process.exit(2)` on any thrown error), or the completed list of per-task
reports. -/
inductive RunOutcome where
  | dryRun (taskIds : List String)
  | failure (exitCode : Nat)
  | completed (reports : List TaskReport)
deriving DecidableEq, Repr

/-- `parseInt(options.parallel, 10)` of run.ts line 32: leading decimal digits
after an optional sign, `none` for `NaN`.  The parsed value is only printed
(run.ts line 35) and never reaches the orchestrators. -/
def parseIntJS (s : String) : Option Int :=
  let core (ds : List Char) : Option Nat :=
    let digits := ds.takeWhile (fun c => c.isDigit)
    if digits.isEmpty then none
    else some (digits.foldl (fun n c => n * 10 + (c.toNat - 48)) 0)
  match (s.trim).data with
  | '-' :: ds => (core ds).map (fun n => -(n : Int))
  | '+' :: ds => (core ds).map (fun n => (n : Int))
  | ds => (core ds).map (fun n => (n : Int))

/-- The execution flow of `runCmd` (src/commands/run.ts) after the spec is
loaded: parse `--parallel` (logged only), log the `--voting` string verbatim
(no validation of any kind), honour `--dry-run`, execute all tasks through
`TaskExecutionOrchestrator.executeTasks`, then run the review phase pairing
`spec.tasks[i]` with `workerResults[i]`.  A thrown graph error is caught and
becomes `process.exit(2)`. -/
def runCmd (parallel : String) (voting : Option String) (dryRun : Bool)
    (worker : Task → Except String WorkerResult)
    (reviewer : Task → Nat → WorkerResult → ReviewResult)
    (specTasks : List Task) : RunOutcome :=
  let _parallelCount := parseIntJS parallel
  let _votingLogged := voting
  if dryRun then
    RunOutcome.dryRun (specTasks.map (fun t => t.id))
  else
    match executeTasks worker specTasks with
    | Except.error _ => RunOutcome.failure 2
    | Except.ok workerResults =>
      match reviewPhase reviewer specTasks workerResults with
      | Except.error c => RunOutcome.failure c
      | Except.ok reports => RunOutcome.completed reports

/-- The `(result.task.id, parsed workerOutput taskId)` pairs of the records
`runCmd` persists (run.ts step 5 stores `taskId: result.task.id` next to
`workerOutput: JSON.stringify(result.workerResult)`). -/
def reportPairs : RunOutcome → List (String × String)
  | RunOutcome.completed reports =>
      reports.map (fun r => (r.taskId, r.workerResult.taskId))
  | _ => []

/-- Lexicographic comparison of character lists by code point, used to order
task ids. -/
def charListLe : List Char → List Char → Bool
  | [], _ => true
  | _ :: _, [] => false
  | a :: as, b :: bs =>
    if a.toNat < b.toNat then true
    else if b.toNat < a.toNat then false
    else charListLe as bs

/-- Lexicographic order on task ids. -/
def strIdLe (a b : String) : Bool := charListLe a.data b.data

/-- Stable sort of tasks by task id, written from the spec's words
("stable sort by task id"): straightforward insertion sort, kept for comparison
with the dispatch order the code actually produces. -/
def specInsertById (t : Task) : List Task → List Task
  | [] => [t]
  | u :: us =>
    if strIdLe t.id u.id then t :: u :: us else u :: specInsertById t us

/-- Spec-side definition: the id-sorted (stable) ordering of a task list. -/
def specStableSortById : List Task → List Task
  | [] => []
  | t :: ts => specInsertById t (specStableSortById ts)

/-! Concrete inputs used by the theorems: small task sets and capability
oracles instantiating the spec's scenarios. -/

/-- Baseline worker artifact for the single-task review-loop scenarios. -/
def w0 : WorkerResult := ⟨"T-001", WStatus.completed, "initial implementation"⟩

/-- A `needs_changes` verdict carrying one issue, numbered to tell attempts apart. -/
def ncVerdict (n : Nat) : ReviewResult :=
  ⟨"T-001", RStatus.needs_changes, 50,
    [⟨"major", "functionality", "issue " ++ toString n⟩], "needs changes"⟩

/-- An approving verdict. -/
def okVerdict : ReviewResult := ⟨"T-001", RStatus.approved, 95, [], "approved"⟩

/-- A rejecting verdict. -/
def rejVerdict : ReviewResult :=
  ⟨"T-001", RStatus.rejected, 10, [⟨"critical", "functionality", "broken"⟩],
    "rejected"⟩

/-- Reviewer oracle for the spec's scenario 4: review fails (needs changes) on
attempts 1 and 2 and passes on attempt 3. -/
def scenario4Reviewer : Nat → WorkerResult → ReviewResult
  | 0, _ => ncVerdict 1
  | 1, _ => ncVerdict 2
  | _, _ => okVerdict

/-- Reviewer oracle that rejects on every call. -/
def alwaysRejectReviewer : Nat → WorkerResult → ReviewResult :=
  fun _ _ => rejVerdict

/-- Reviewer oracle that asks for changes on every call (always `pass = false`). -/
def alwaysNeedsChangesReviewer : Nat → WorkerResult → ReviewResult :=
  fun _ _ => ncVerdict 0

/-- A dependency-free task. -/
def taskA : Task := ⟨"T-001", "task A", [], []⟩

/-- A task depending on `taskA`. -/
def taskB : Task := ⟨"T-002", "task B", ["T-001"], []⟩

/-- First member of a two-task dependency cycle. -/
def cycTask1 : Task := ⟨"T-001", "cyclic task 1", ["T-002"], []⟩

/-- Second member of the cycle. -/
def cycTask2 : Task := ⟨"T-002", "cyclic task 2", ["T-001"], []⟩

/-- The cyclic task set of the spec's scenario 2. -/
def cycTasks : List Task := [cycTask1, cycTask2]

/-- A task whose only dependency id exists in no task. -/
def danglingTask : Task := ⟨"T-001", "dangling dep", ["T-404"], []⟩

/-- A dependency-free task whose id sorts before `taskReadyB`. -/
def taskReadyA : Task := ⟨"T-001", "ready A", [], []⟩

/-- A dependency-free task whose id sorts after `taskReadyA`. -/
def taskReadyB : Task := ⟨"T-002", "ready B", [], []⟩

/-- Two simultaneously-ready tasks listed in non-id order. -/
def readyTasks : List Task := [taskReadyB, taskReadyA]

/-- Task set for the result-pairing scenario: the dependent task listed first,
so that topological sorting reorders execution. -/
def pairTasks : List Task := [taskB, taskA]

/-- Worker oracle that completes every task. -/
def okWorker : Task → Except String WorkerResult :=
  fun t => Except.ok ⟨t.id, WStatus.completed, "ok"⟩

/-- Worker oracle whose execution throws on `T-001` and completes every other
task. -/
def failT001Worker : Task → Except String WorkerResult :=
  fun t =>
    if t.id == "T-001" then Except.error "boom"
    else Except.ok ⟨t.id, WStatus.completed, "ok"⟩

/-- Reviewer oracle (per task) that approves on the first call. -/
def approveAllReviewer : Task → Nat → WorkerResult → ReviewResult :=
  fun t _ _ => ⟨t.id, RStatus.approved, 90, [], "looks good"⟩

/-! General lemmas about the review loop. -/

/-- The loop only ever appends to the iterations accumulator, at most one
verdict per remaining fuel. -/
lemma reviewLoopGo_iterations_grow (reviewer : Nat → WorkerResult → ReviewResult)
    (current : WorkerResult) :
    ∀ (fuel i : Nat) (acc : List ReviewResult) (cs : List WorkerResult),
      acc.length ≤ (reviewLoopGo reviewer current i fuel acc cs).iterations.length ∧
      (reviewLoopGo reviewer current i fuel acc cs).iterations.length
        ≤ acc.length + fuel ∧
      (1 ≤ fuel →
        acc.length + 1
          ≤ (reviewLoopGo reviewer current i fuel acc cs).iterations.length) := by
  intro fuel
  induction fuel with
  | zero =>
    intro i acc cs
    simp [reviewLoopGo]
  | succ n ih =>
    intro i acc cs
    cases hst : (reviewer i current).status with
    | approved =>
      simp only [reviewLoopGo, hst, reduceIte]
      simp only [List.length_append, List.length_singleton]
      omega
    | rejected =>
      simp only [reviewLoopGo, hst, reduceCtorEq, if_false, reduceIte]
      simp only [List.length_append, List.length_singleton]
      omega
    | needs_changes =>
      obtain ⟨h1, h2, _⟩ := ih (i + 1) (acc ++ [reviewer i current]) (cs ++ [current])
      simp only [reviewLoopGo, hst, reduceCtorEq, if_false]
      simp only [List.length_append, List.length_singleton] at h1 h2
      omega

/-- Every verdict recorded before the last one has status `needs_changes`:
the loop breaks as soon as a verdict is `approved` or `rejected`. -/
lemma reviewLoopGo_dropLast_nc (reviewer : Nat → WorkerResult → ReviewResult)
    (current : WorkerResult) :
    ∀ (fuel i : Nat) (acc : List ReviewResult) (cs : List WorkerResult),
      (∀ x ∈ acc, x.status = RStatus.needs_changes) →
      ∀ x ∈ (reviewLoopGo reviewer current i fuel acc cs).iterations.dropLast,
        x.status = RStatus.needs_changes := by
  intro fuel
  induction fuel with
  | zero =>
    intro i acc cs hacc x hx
    simp only [reviewLoopGo] at hx
    exact hacc x ((List.dropLast_sublist acc).subset hx)
  | succ n ih =>
    intro i acc cs hacc x hx
    cases hst : (reviewer i current).status with
    | approved =>
      simp only [reviewLoopGo, hst] at hx
      simp only [reduceIte, List.dropLast_concat] at hx
      exact hacc x hx
    | rejected =>
      simp only [reviewLoopGo, hst] at hx
      simp only [reduceCtorEq, if_false, reduceIte, List.dropLast_concat] at hx
      exact hacc x hx
    | needs_changes =>
      simp only [reviewLoopGo, hst, reduceCtorEq, if_false] at hx
      refine ih (i + 1) (acc ++ [reviewer i current]) (cs ++ [current]) ?_ x hx
      intro y hy
      rcases List.mem_append.mp hy with h | h
      · exact hacc y h
      · rw [List.mem_singleton.mp h]
        exact hst

/-- A list element picked out by `getLast?` is a member of the list. -/
lemma getLast?_mem_of_eq {α : Type} {l : List α} {x : α}
    (h : l.getLast? = some x) : x ∈ l := by
  obtain ⟨hne, hxe⟩ := List.mem_getLast?_eq_getLast (show x ∈ l.getLast? from h)
  rw [hxe]
  exact List.getLast_mem hne

/-- The `approved` flag is set exactly when the last recorded verdict is an
approval. -/
lemma reviewLoopGo_approved_iff (reviewer : Nat → WorkerResult → ReviewResult)
    (current : WorkerResult) :
    ∀ (fuel i : Nat) (acc : List ReviewResult) (cs : List WorkerResult),
      (∀ x ∈ acc, x.status = RStatus.needs_changes) →
      ((reviewLoopGo reviewer current i fuel acc cs).approved = true ↔
        ∃ x, (reviewLoopGo reviewer current i fuel acc cs).iterations.getLast?
              = some x ∧ x.status = RStatus.approved) := by
  intro fuel
  induction fuel with
  | zero =>
    intro i acc cs hacc
    simp only [reviewLoopGo]
    constructor
    · intro h
      exact absurd h (by simp)
    · rintro ⟨x, hx, hst⟩
      have hmem : x ∈ acc := getLast?_mem_of_eq hx
      rw [hacc x hmem] at hst
      exact absurd hst (by simp)
  | succ n ih =>
    intro i acc cs hacc
    cases hst : (reviewer i current).status with
    | approved =>
      simp only [reviewLoopGo, hst, reduceIte]
      constructor
      · intro _
        exact ⟨reviewer i current, by rw [List.getLast?_concat], hst⟩
      · intro _
        simp
    | rejected =>
      simp only [reviewLoopGo, hst, reduceCtorEq, if_false, reduceIte]
      constructor
      · intro h
        exact absurd h (by simp)
      · rintro ⟨x, hx, hxs⟩
        rw [List.getLast?_concat] at hx
        rw [← Option.some_inj.mp hx] at hxs
        rw [hst] at hxs
        exact absurd hxs (by simp)
    | needs_changes =>
      simp only [reviewLoopGo, hst, reduceCtorEq, if_false]
      refine ih (i + 1) (acc ++ [reviewer i current]) (cs ++ [current]) ?_
      intro y hy
      rcases List.mem_append.mp hy with h | h
      · exact hacc y h
      · rw [List.mem_singleton.mp h]
        exact hst

/-- Every worker result ever passed to the review capability is the loop's
unchanged `currentResult` (the source never regenerates it). -/
lemma reviewLoopGo_calls_const (reviewer : Nat → WorkerResult → ReviewResult)
    (current : WorkerResult) :
    ∀ (fuel i : Nat) (acc : List ReviewResult) (cs : List WorkerResult),
      (∀ x ∈ cs, x = current) →
      ∀ x ∈ (reviewLoopGo reviewer current i fuel acc cs).calls, x = current := by
  intro fuel
  induction fuel with
  | zero =>
    intro i acc cs hcs x hx
    simp only [reviewLoopGo] at hx
    exact hcs x hx
  | succ n ih =>
    intro i acc cs hcs x hx
    have hext : ∀ y ∈ cs ++ [current], y = current := by
      intro y hy
      rcases List.mem_append.mp hy with h | h
      · exact hcs y h
      · exact List.mem_singleton.mp h
    cases hst : (reviewer i current).status with
    | approved =>
      simp only [reviewLoopGo, hst, reduceIte] at hx
      exact hext x hx
    | rejected =>
      simp only [reviewLoopGo, hst, reduceCtorEq, if_false, reduceIte] at hx
      exact hext x hx
    | needs_changes =>
      simp only [reviewLoopGo, hst, reduceCtorEq, if_false] at hx
      exact ih (i + 1) (acc ++ [reviewer i current]) (cs ++ [current]) hext x hx

/-- C10: for every task artifact and every `maxIterations ≥ 1`, `runReviewLoop`
records between 1 and `maxIterations` verdicts; every verdict before the last
has status `needs_changes` (the loop stops at the first `approved` or
`rejected` verdict); the returned `finalReview` is the last recorded verdict;
and the `approved` flag is true iff the last recorded verdict is `approved`. -/
theorem claim_C10_review_loop_invariants
    (m : Nat) (reviewer : Nat → WorkerResult → ReviewResult) (w : WorkerResult)
    (hm : 1 ≤ m) :
    1 ≤ (runReviewLoop m reviewer w).iterations.length ∧
    (runReviewLoop m reviewer w).iterations.length ≤ m ∧
    (runReviewLoop m reviewer w).finalReview
      = (runReviewLoop m reviewer w).iterations.getLast? ∧
    (∀ x ∈ (runReviewLoop m reviewer w).iterations.dropLast,
      x.status = RStatus.needs_changes) ∧
    ((runReviewLoop m reviewer w).approved = true ↔
      ∃ x, (runReviewLoop m reviewer w).finalReview = some x ∧
        x.status = RStatus.approved) := by
  obtain ⟨h1, h2, h3⟩ := reviewLoopGo_iterations_grow reviewer w m 0 [] []
  refine ⟨?_, ?_, rfl, ?_, ?_⟩
  · simpa [runReviewLoop] using h3 hm
  · simpa [runReviewLoop] using h2
  · intro x hx
    exact reviewLoopGo_dropLast_nc reviewer w m 0 [] [] (by simp) x hx
  · exact reviewLoopGo_approved_iff reviewer w m 0 [] [] (by simp)

/-- Witness for C10 at `maxIterations = 3` with the scenario-4 reviewer. -/
theorem claim_C10_review_loop_invariants_witness :
    1 ≤ (runReviewLoop 3 scenario4Reviewer w0).iterations.length :=
  (claim_C10_review_loop_invariants 3 scenario4Reviewer w0 (by decide)).1

/-- C3 counterexample: with `maxIterations = 3` and a review capability that
always returns `pass = false` (here: a rejecting verdict on every call), the
loop terminates after a single recorded verdict whose status is `rejected` —
the terminal rejection is reached after 1 failing attempt, not after exactly
`maxIterations = 3`, and the verdict count is 1, not 3. -/
theorem claim_C3_counterexample :
    (runReviewLoop 3 alwaysRejectReviewer w0).iterations.length = 1 ∧
    (runReviewLoop 3 alwaysRejectReviewer w0).approved = false ∧
    (runReviewLoop 3 alwaysRejectReviewer w0).finalReview = some rejVerdict ∧
    rejVerdict.status = RStatus.rejected :=
  ⟨rfl, rfl, rfl, rfl⟩

/-- C3 amended: the verdict count never exceeds `maxIterations`, and a task
whose review always returns `needs_changes` (the non-terminal failing verdict)
under `maxIterations = 3` ends unapproved with exactly 3 recorded verdicts
whose final status is `needs_changes`; a `rejected` verdict instead ends the
loop immediately on the attempt where it occurs. -/
theorem claim_C3_retry_cap :
    (∀ (m : Nat) (r : Nat → WorkerResult → ReviewResult) (w : WorkerResult),
      (runReviewLoop m r w).iterations.length ≤ m) ∧
    (∀ (r : Nat → WorkerResult → ReviewResult) (w : WorkerResult),
      (∀ i x, (r i x).status = RStatus.needs_changes) →
      (runReviewLoop 3 r w).iterations.length = 3 ∧
      (runReviewLoop 3 r w).approved = false ∧
      ∃ x, (runReviewLoop 3 r w).finalReview = some x ∧
        x.status = RStatus.needs_changes) := by
  constructor
  · intro m r w
    simpa [runReviewLoop] using (reviewLoopGo_iterations_grow r w m 0 [] []).2.1
  · intro r w h
    have e : runReviewLoop 3 r w
        = ⟨some (r 2 w), [r 0 w, r 1 w, r 2 w], false⟩ := by
      simp [runReviewLoop, reviewLoopGo, h]
    rw [e]
    exact ⟨rfl, rfl, r 2 w, rfl, h 2 w⟩

/-- Witness for C3 amended with the always-needs-changes reviewer. -/
theorem claim_C3_retry_cap_witness :
    (runReviewLoop 3 alwaysNeedsChangesReviewer w0).iterations.length = 3 :=
  (claim_C3_retry_cap.2 alwaysNeedsChangesReviewer w0 (fun _ _ => rfl)).1

/-- C1 (code defect): in the spec's scenario 4 (review fails attempts 1 and 2,
passes attempt 3), every one of the three review calls receives the original
unchanged worker result — the generation capability is never re-invoked between
attempts and no issues are passed back as feedback (`runReviewLoop` has no
access to the worker at all; the regeneration step is an unimplemented `TODO`
in the source).  In general, every input ever submitted to review equals the
initial worker result, for any reviewer behaviour and any retry cap. -/
theorem claim_C1_no_feedback_channel :
    reviewInputs 3 scenario4Reviewer w0 = [w0, w0, w0] ∧
    (runReviewLoop 3 scenario4Reviewer w0).approved = true ∧
    (runReviewLoop 3 scenario4Reviewer w0).iterations.length = 3 ∧
    (∀ (m : Nat) (r : Nat → WorkerResult → ReviewResult) (w x : WorkerResult),
      x ∈ reviewInputs m r w → x = w) := by
  refine ⟨rfl, rfl, rfl, ?_⟩
  intro m r w x hx
  exact reviewLoopGo_calls_const r w m 0 [] [] (by simp) x hx

/-- Witness for C1's general conjunct at concrete inputs. -/
theorem claim_C1_no_feedback_channel_witness : w0 = w0 :=
  claim_C1_no_feedback_channel.2.2.2 3 scenario4Reviewer w0 w0 (by decide)

/-! General lemmas about the topological sort. -/

/-- With pairwise-distinct ids, looking a member's id up in the task map
returns that member. -/
lemma taskMapGet_of_mem : ∀ (tasks : List Task) (t : Task),
    (tasks.map Task.id).Nodup → t ∈ tasks → taskMapGet tasks t.id = some t := by
  intro tasks
  induction tasks with
  | nil =>
    intro t _ hmem
    cases hmem
  | cons u us ih =>
    intro t hnod hmem
    rw [List.map_cons, List.nodup_cons] at hnod
    rcases List.mem_cons.mp hmem with rfl | hmem'
    · have hfil : us.filter (fun x => x.id == t.id) = [] := by
        rw [List.filter_eq_nil_iff]
        intro a ha
        simp only [beq_iff_eq]
        intro hEq
        exact hnod.1 (hEq ▸ List.mem_map_of_mem Task.id ha)
      simp [taskMapGet, List.filter_cons, hfil]
    · have hne : (u.id == t.id) = false := by
        simp only [beq_eq_false_iff_ne, ne_eq]
        intro hEq
        exact hnod.1 (hEq ▸ List.mem_map_of_mem Task.id hmem')
      have := ih t hnod.2 hmem'
      simp only [taskMapGet, List.filter_cons, hne] at this ⊢
      simpa using this

/-- A worklist of ids that are all unknown to the task map and not in either
state set is skipped wholesale, leaving the state unchanged. -/
lemma visitList_skip_all (tasks : List Task) :
    ∀ (ds : List String) (fuel : Nat) (st : TopoState),
      ds.length + 1 ≤ fuel →
      (∀ d ∈ ds, d ∉ st.visiting ∧ d ∉ st.visited ∧ taskMapGet tasks d = none) →
      visitList tasks fuel ds st = Except.ok st := by
  intro ds
  induction ds with
  | nil =>
    intro fuel st hfuel _
    cases fuel with
    | zero => exact absurd hfuel (by simp)
    | succ f => rfl
  | cons d ds ih =>
    intro fuel st hfuel hall
    cases fuel with
    | zero => exact absurd hfuel (by simp)
    | succ f =>
      obtain ⟨hv1, hv2, hv3⟩ := hall d (List.mem_cons_self d ds)
      simp only [visitList, hv1, hv2, hv3, if_false]
      simp only [List.length_cons] at hfuel
      exact ih f st (by omega) (fun x hx => hall x (List.mem_cons_of_mem d hx))

/-- On a task list with no dependencies at all and distinct ids, the DFS
processes the worklist strictly in input order, appending each task to the
result as it goes. -/
lemma visitList_all_ready (tasks : List Task)
    (hdeps : ∀ t ∈ tasks, t.dependencies = [])
    (hnod : (tasks.map Task.id).Nodup) :
    ∀ (suf pre : List Task) (fuel : Nat),
      tasks = pre ++ suf →
      suf.length + 1 ≤ fuel →
      visitList tasks fuel (suf.map Task.id) ⟨pre.map Task.id, [], pre⟩
        = Except.ok ⟨tasks.map Task.id, [], tasks⟩ := by
  intro suf
  induction suf with
  | nil =>
    intro pre fuel heq hfuel
    cases fuel with
    | zero => exact absurd hfuel (by simp)
    | succ f =>
      subst heq
      simp only [List.append_nil, List.map_nil]
      rfl
  | cons t suf ih =>
    intro pre fuel heq hfuel
    cases fuel with
    | zero => exact absurd hfuel (by simp)
    | succ f =>
      have htmem : t ∈ tasks := by
        rw [heq]
        exact List.mem_append_right pre (List.mem_cons_self t suf)
      have hmap : taskMapGet tasks t.id = some t := taskMapGet_of_mem tasks t hnod htmem
      have hnotvis : t.id ∉ pre.map Task.id := by
        have h2 := hnod
        rw [heq, List.map_append, List.map_cons, List.nodup_append] at h2
        intro hmem
        exact h2.2.2 hmem (List.mem_cons_self t.id (suf.map Task.id))
      have hdept : t.dependencies = [] := hdeps t htmem
      have hfge1 : 1 ≤ f := by
        simp only [List.length_cons] at hfuel
        omega
      obtain ⟨f', rfl⟩ : ∃ f', f = f' + 1 := ⟨f - 1, by omega⟩
      simp only [List.map_cons, visitList, hmap, hdept, hnotvis, if_false,
        List.not_mem_nil, List.nil_append, List.erase_cons_head]
      have hpre : (pre ++ [t]).map Task.id = pre.map Task.id ++ [t.id] := by
        rw [List.map_append, List.map_singleton]
      have := ih (pre ++ [t]) (f' + 1) (by rw [heq, List.append_cons]) (by
        simp only [List.length_cons] at hfuel
        omega)
      rw [hpre] at this
      exact this

/-- `topologicalSort` on an all-ready task list (no dependencies, distinct ids)
returns the tasks in input order: the dispatch order among simultaneously-ready
tasks is the input order, not an id-sorted order. -/
lemma topologicalSort_all_ready (tasks : List Task)
    (hdeps : ∀ t ∈ tasks, t.dependencies = [])
    (hnod : (tasks.map Task.id).Nodup) :
    topologicalSort tasks = Except.ok tasks := by
  have hfuel : tasks.length + 1 ≤ topoFuel tasks := by
    have h1 : 1 ≤ tasks.length + (tasks.map (fun t => t.dependencies.length)).sum + 1 := by
      omega
    calc tasks.length + 1
        = 1 * (tasks.length + 1) := by ring
      _ ≤ (tasks.length + (tasks.map (fun t => t.dependencies.length)).sum + 1)
            * (tasks.length + 1) := Nat.mul_le_mul_right _ h1
  have h := visitList_all_ready tasks hdeps hnod tasks [] (topoFuel tasks)
    (by simp) hfuel
  simp only [List.map_nil] at h
  unfold topologicalSort
  rw [h]

/-- Visiting a single task all of whose dependency ids are unknown: every
dependency is silently skipped and the task is appended to the result. -/
lemma visitList_single_dangling (t : Task) (k : Nat)
    (hk : t.dependencies.length + 1 ≤ k)
    (h : t.id ∉ t.dependencies) :
    visitList [t] (k + 1) [t.id] ⟨[], [], []⟩
      = Except.ok ⟨[t.id], [], [t]⟩ := by
  have hmap : taskMapGet [t] t.id = some t := by
    simp [taskMapGet]
  have hskip : visitList [t] k t.dependencies ⟨[], [t.id], []⟩
      = Except.ok ⟨[], [t.id], []⟩ := by
    apply visitList_skip_all [t] t.dependencies k ⟨[], [t.id], []⟩ hk
    intro d hd
    refine ⟨?_, by simp, ?_⟩
    · simp only [List.mem_singleton]
      intro hEq
      exact h (hEq ▸ hd)
    · have hne : (t.id == d) = false := by
        simp only [beq_eq_false_iff_ne, ne_eq]
        intro hEq
        exact h (hEq ▸ hd)
      simp [taskMapGet, List.filter_cons, hne]
  have hk1 : 1 ≤ k := by omega
  obtain ⟨k', rfl⟩ : ∃ k', k = k' + 1 := ⟨k - 1, by omega⟩
  simp only [visitList, hmap, List.not_mem_nil, if_false, List.nil_append]
  rw [hskip]
  simp [List.erase_cons_head]

/-- C5 amended: a dependency id that exists in no task is silently skipped by
the graph build — no error of any kind is raised — and the task carrying the
dangling dependency is executed by the worker. -/
theorem claim_C5_dangling_skipped (t : Task)
    (worker : Task → Except String WorkerResult)
    (h : t.id ∉ t.dependencies) :
    topologicalSort [t] = Except.ok [t] ∧
    executeTasks worker [t] = Except.ok [executeOne worker t] := by
  have hfuel : ∃ k, topoFuel [t] = k + 1 ∧ t.dependencies.length + 1 ≤ k := by
    refine ⟨2 * t.dependencies.length + 3, ?_, by omega⟩
    simp [topoFuel]
    ring
  obtain ⟨k, hkeq, hkge⟩ := hfuel
  have hsort : topologicalSort [t] = Except.ok [t] := by
    unfold topologicalSort
    rw [List.map_singleton, hkeq, visitList_single_dangling t k hkge h]
  refine ⟨hsort, ?_⟩
  unfold executeTasks
  rw [hsort]
  rfl

/-- Witness for C5 amended at the concrete dangling-dependency task. -/
theorem claim_C5_dangling_skipped_witness :
    topologicalSort [danglingTask] = Except.ok [danglingTask] ∧
    executeTasks okWorker [danglingTask]
      = Except.ok [executeOne okWorker danglingTask] :=
  claim_C5_dangling_skipped danglingTask okWorker (by decide)

/-- C5 counterexample: for the task set `[danglingTask]`, whose only dependency
id `T-404` exists in no task, the graph build succeeds (no
`DanglingDependencyError` is raised, synchronously or otherwise) and the task
is executed, completing normally. -/
theorem claim_C5_counterexample :
    topologicalSort [danglingTask] = Except.ok [danglingTask] ∧
    danglingTask.dependencies = ["T-404"] ∧
    executeTasks okWorker [danglingTask]
      = Except.ok [⟨"T-001", WStatus.completed, "ok"⟩] :=
  ⟨rfl, rfl, rfl⟩

/-- C4 counterexample: on the two-task cycle `T-001 → T-002 → T-001` the build
throws `Circular dependency detected involving task T-001`, naming only
`T-001`: the cycle member `T-002` is absent from the error. -/
theorem claim_C4_counterexample :
    topologicalSort cycTasks = Except.error (TopoErr.cycle "T-001") ∧
    cycTask2.id = "T-002" ∧
    cycTask2 ∈ cycTasks ∧
    "T-002" ∉ listedMembers (TopoErr.cycle "T-001") :=
  ⟨rfl, rfl, by decide, by decide⟩

/-- C4 amended: on a cyclic task set the build throws an error naming exactly
one task of the cycle (never the full member list — every error names at most
one id), the throw escapes `executeTasks` unchanged, and no task is ever
dispatched (the worker is never invoked: `executeTasks` returns the error for
every worker oracle). -/
theorem claim_C4_cycle_error :
    (∀ (tasks : List Task) (e : TopoErr)
        (worker : Task → Except String WorkerResult),
      topologicalSort tasks = Except.error e →
      executeTasks worker tasks = Except.error e) ∧
    (∀ e : TopoErr, (listedMembers e).length ≤ 1) ∧
    (∀ worker : Task → Except String WorkerResult,
      executeTasks worker cycTasks = Except.error (TopoErr.cycle "T-001")) := by
  refine ⟨?_, ?_, ?_⟩
  · intro tasks e worker h
    unfold executeTasks
    rw [h]
  · intro e
    cases e <;> simp [listedMembers]
  · intro worker
    rfl

/-- Witness for C4 amended: the propagation conjunct applied to the concrete
cycle. -/
theorem claim_C4_cycle_error_witness :
    executeTasks okWorker cycTasks = Except.error (TopoErr.cycle "T-001") :=
  claim_C4_cycle_error.1 cycTasks (TopoErr.cycle "T-001") okWorker rfl

/-- C8 counterexample: the two dependency-free (simultaneously ready) tasks
`T-002`, `T-001`, given in that order, are dispatched in input order
`[T-002, T-001]`, which differs from the stable id-sorted order
`[T-001, T-002]`. -/
theorem claim_C8_counterexample :
    topologicalSort readyTasks = Except.ok readyTasks ∧
    specStableSortById readyTasks = [taskReadyA, taskReadyB] ∧
    readyTasks ≠ [taskReadyA, taskReadyB] :=
  ⟨rfl, rfl, by decide⟩

/-- C8 amended: dispatch order is a pure function of the input, hence
deterministic across runs, but among simultaneously-ready tasks it is the
input-list order (the dependency-DFS postorder), not a stable sort by id. -/
theorem claim_C8_dispatch_order :
    (∀ tasks : List Task,
      (∀ t ∈ tasks, t.dependencies = []) → (tasks.map Task.id).Nodup →
      topologicalSort tasks = Except.ok tasks) ∧
    topologicalSort readyTasks = Except.ok readyTasks ∧
    specStableSortById readyTasks = [taskReadyA, taskReadyB] := by
  refine ⟨?_, rfl, rfl⟩
  intro tasks hdeps hnod
  exact topologicalSort_all_ready tasks hdeps hnod

/-- Witness for C8 amended at the two ready tasks. -/
theorem claim_C8_dispatch_order_witness :
    topologicalSort readyTasks = Except.ok readyTasks :=
  claim_C8_dispatch_order.1 readyTasks (by decide) (by decide)

/-- C2 counterexample: `T-001` fails terminally; its direct dependent `T-002`
is nevertheless executed by the worker and ends `completed` (the code's
success state) — there is no `BLOCKED` cascade and the generation capability
is invoked for the descendant. -/
theorem claim_C2_counterexample :
    taskB.dependencies = [taskA.id] ∧
    executeTasks failT001Worker [taskA, taskB]
      = Except.ok [⟨"T-001", WStatus.failed, "Execution failed: boom"⟩,
                   ⟨"T-002", WStatus.completed, "ok"⟩] ∧
    (⟨"T-002", WStatus.completed, "ok"⟩ : WorkerResult).status
      = WStatus.completed :=
  ⟨rfl, rfl, rfl⟩

/-- C2 amended: a terminal failure never blocks descendants.  `executeTasks`
produces exactly one worker invocation per task of the sorted order regardless
of failures, and each task's result depends only on the worker's behaviour on
that very task — in particular a descendant of a failed task is executed and
its (possibly `completed`) result is unchanged by the ancestor's failure. -/
theorem claim_C2_no_cascading_block :
    (∀ (worker : Task → Except String WorkerResult) (tasks sorted : List Task),
      topologicalSort tasks = Except.ok sorted →
      ∃ rs, executeTasks worker tasks = Except.ok rs ∧
        rs.length = sorted.length) ∧
    (∀ (w1 w2 : Task → Except String WorkerResult) (tasks sorted : List Task)
        (i : Nat) (t : Task),
      topologicalSort tasks = Except.ok sorted →
      sorted[i]? = some t →
      w1 t = w2 t →
      ∃ rs1 rs2, executeTasks w1 tasks = Except.ok rs1 ∧
        executeTasks w2 tasks = Except.ok rs2 ∧
        rs1[i]? = some (executeOne w1 t) ∧
        rs2[i]? = some (executeOne w1 t)) := by
  constructor
  · intro worker tasks sorted h
    refine ⟨sorted.map (executeOne worker), ?_, by simp⟩
    unfold executeTasks
    rw [h]
  · intro w1 w2 tasks sorted i t h hi hw
    refine ⟨sorted.map (executeOne w1), sorted.map (executeOne w2), ?_, ?_, ?_, ?_⟩
    · unfold executeTasks
      rw [h]
    · unfold executeTasks
      rw [h]
    · rw [List.getElem?_map, hi]
      rfl
    · rw [List.getElem?_map, hi]
      show some (executeOne w2 t) = some (executeOne w1 t)
      unfold executeOne
      rw [hw]

/-- Witness for C2 amended: the non-interference conjunct applied to the
concrete failing worker, showing the descendant `T-002` gets the same result
whether or not its ancestor `T-001` failed. -/
theorem claim_C2_no_cascading_block_witness :
    ∃ rs1 rs2,
      executeTasks failT001Worker [taskA, taskB] = Except.ok rs1 ∧
      executeTasks okWorker [taskA, taskB] = Except.ok rs2 ∧
      rs1[1]? = some (executeOne failT001Worker taskB) ∧
      rs2[1]? = some (executeOne failT001Worker taskB) :=
  claim_C2_no_cascading_block.2 failT001Worker okWorker [taskA, taskB]
    [taskA, taskB] 1 taskB rfl rfl rfl

/-- C6 counterexample: a run configured with the unregistered voting strategy
name `bogus-strategy` does not fail fast with a configuration error: the worker
is invoked and the run completes with the worker's artifact. -/
theorem claim_C6_counterexample :
    runCmd "2" (some "bogus-strategy") false okWorker approveAllReviewer [taskA]
      = RunOutcome.completed
          [⟨"T-001", ⟨"T-001", WStatus.completed, "ok"⟩,
            ⟨"T-001", RStatus.approved, 90, [], "looks good"⟩⟩] :=
  rfl

/-- C6 amended: the `--voting` option is never validated — the run's outcome is
entirely independent of the strategy string (registered, unregistered or
absent), and a run with an unknown strategy name proceeds to generation rather
than failing. -/
theorem claim_C6_no_strategy_validation :
    (∀ (p : String) (v1 v2 : Option String) (d : Bool)
        (w : Task → Except String WorkerResult)
        (r : Task → Nat → WorkerResult → ReviewResult) (ts : List Task),
      runCmd p v1 d w r ts = runCmd p v2 d w r ts) ∧
    runCmd "2" (some "bogus-strategy") false okWorker approveAllReviewer [taskA]
      ≠ RunOutcome.failure 2 := by
  constructor
  · intro p v1 v2 d w r ts
    rfl
  · decide

/-- C7 (code defect): the `--parallel` option never reaches the execution
engine — the run's outcome is identical for every value of `parallel` — and
`executeTasks` is a strictly sequential map over the sorted task list: one
task at a time, no pool of `maxParallel` slots exists. -/
theorem claim_C7_parallel_unused :
    (∀ (p1 p2 : String) (v : Option String) (d : Bool)
        (w : Task → Except String WorkerResult)
        (r : Task → Nat → WorkerResult → ReviewResult) (ts : List Task),
      runCmd p1 v d w r ts = runCmd p2 v d w r ts) ∧
    (∀ (w : Task → Except String WorkerResult) (tasks sorted : List Task),
      topologicalSort tasks = Except.ok sorted →
      executeTasks w tasks = Except.ok (sorted.map (executeOne w))) := by
  constructor
  · intro p1 p2 v d w r ts
    rfl
  · intro w tasks sorted h
    unfold executeTasks
    rw [h]

/-- Witness for C7: the sequential-map conjunct applied to the two ready
tasks. -/
theorem claim_C7_parallel_unused_witness :
    executeTasks okWorker readyTasks
      = Except.ok (readyTasks.map (executeOne okWorker)) :=
  claim_C7_parallel_unused.2 okWorker readyTasks readyTasks rfl

/-- C9 (code defect): with the dependent task listed first, topological sorting
reorders execution, but `runCmd` pairs `spec.tasks[i]` with `workerResults[i]`
positionally: the report for task `T-002` carries the worker output whose
`taskId` is `T-001` and vice versa. -/
theorem claim_C9_result_pairing_mismatch :
    reportPairs (runCmd "2" none false okWorker approveAllReviewer pairTasks)
      = [("T-002", "T-001"), ("T-001", "T-002")] ∧
    ("T-002" : String) ≠ "T-001" :=
  ⟨rfl, by decide⟩

end Ideaforge
